import Mathlib

/-!
Verification of the admission-and-accounting engine of the simulated
virtual-kubelet provider (package `sim` and its helper package `simpod`).

The Go source is embedded shallowly: pure functions become Lean functions,
the concurrent pod registry (a `sync.Map`) becomes an association list with
explicit load/store/delete, timestamps become integer nanosecond counts
(Go `time.Time` differences truncated to whole seconds via `tdiv`), and Go
`int32`/`int64` values become `Int` (the claims under study stay far from
the overflow boundaries, which are noted where relevant).

Functions whose bodies are not part of the repository snapshot
(`resource.ParseQuantity` from k8s.io/apimachinery, and the repository
helpers `simResource.add`, `getResourceReq`, `isOverCapacity`) are modelled
from the specification; each such definition carries a doc comment saying
so.
-/

namespace VKSim

/-- Modelled from the spec: ResourceVector holding CPU (milli-units),
memory (bytes) and GPU (count). The field layout matches the positional
literal `simResource{milliCPU, memory, gpu}` used by `parseSimSpec`. -/
structure simResource where
  milliCPU : Int
  memory : Int
  gpu : Int
deriving DecidableEq, Repr

/-- Modelled from the spec: componentwise addition of resource vectors,
returning a new value (the repository file defining `add` is not in the
snapshot; only its callers are). -/
def simResource.add (a b : simResource) : simResource :=
  ⟨a.milliCPU + b.milliCPU, a.memory + b.memory, a.gpu + b.gpu⟩

/-- Zero resource vector, the Go zero value `simResource{}`. -/
def simResource.zero : simResource := ⟨0, 0, 0⟩

/-- Quantity models the subset of `resource.Quantity` the engine uses.
Modelled from the spec: the external library k8s.io/apimachinery is not
repository code; we carry the exact milli-value, from which `MilliValue`
and `Value` are read off. -/
structure Quantity where
  milli : Int
deriving DecidableEq, Repr

/-- MilliValue returns the quantity in milli-units. -/
def Quantity.milliValue (q : Quantity) : Int := q.milli

/-- Value returns the quantity in whole units, rounding up as the k8s
library does. -/
def Quantity.value (q : Quantity) : Int := (q.milli + 999) / 1000

/-- suffixMilli maps a quantity suffix to the milli-value of one unit.
Modelled from the spec: bare integers and the usual decimal and binary
unit suffixes are accepted. -/
def suffixMilli : String → Option Int
  | "" => some 1000
  | "m" => some 1
  | "k" => some 1000000
  | "M" => some 1000000000
  | "G" => some 1000000000000
  | "T" => some 1000000000000000
  | "Ki" => some 1024000
  | "Mi" => some 1048576000
  | "Gi" => some 1073741824000
  | "Ti" => some 1099511627776000
  | _ => none

/-- digitsVal folds a list of decimal digit characters into a number. -/
def digitsVal (ds : List Char) : Int :=
  ds.foldl (fun a c => a * 10 + (Int.ofNat c.toNat - 48)) 0

/-- parseQuantity parses a decimal integer with an optional unit suffix.
Modelled from the spec: stands in for `resource.ParseQuantity`, which must
accept both bare integers and unit-suffixed forms such as "500m", "2Gi". -/
def parseQuantity (s : String) : Option Quantity :=
  let ds := s.data.takeWhile Char.isDigit
  let rest := s.data.drop ds.length
  if ds.isEmpty then none
  else
    match suffixMilli (String.mk rest) with
    | none => none
    | some mult => some ⟨digitsVal ds * mult⟩

/-- simSpecPhase is one phase of a workload profile: a duration in seconds
together with a constant resource demand (simspec source file). -/
structure simSpecPhase where
  seconds : Int
  resource : simResource
deriving DecidableEq, Repr

/-- simSpec is an ordered list of phases. -/
def simSpec := List simSpecPhase
deriving DecidableEq

/-- Container carries the two fields of a pod container the engine reads. -/
structure Container where
  name : String
  image : String
deriving DecidableEq, Repr

/-- simSpecPhaseJSON mirrors the decoded JSON shape of one phase of the
"simSpec" annotation: seconds, raw CPU and memory quantity strings, and a
GPU count carried as a number. -/
structure simSpecPhaseJSON where
  seconds : Int
  cpu : String
  memory : String
  gpu : Int
deriving DecidableEq, Repr

/-- Pod models the fields of `v1.Pod` the engine touches: identity,
the decoded "simSpec" annotation (`none` when the annotation is absent;
JSON decoding of the raw string is abstracted away), and the declared
containers. -/
structure Pod where
  nspace : String
  name : String
  annotations : Option (List simSpecPhaseJSON)
  containers : List Container
deriving DecidableEq, Repr

/-- parsePhases is the validation loop of `parseSimSpec`: each phase has
its CPU and memory strings parsed in order, the first failure aborts the
whole parse with a message naming the offending raw value, and on success
CPU is normalized to milli-units and memory to bytes while the GPU count
is carried through unchanged. -/
def parsePhases : List simSpecPhaseJSON → Except String (List simSpecPhase)
  | [] => Except.ok []
  | ph :: rest =>
    match parseQuantity ph.cpu with
    | none => Except.error ("Invalid CPU value \"" ++ ph.cpu ++ "\"")
    | some cpu =>
      match parseQuantity ph.memory with
      | none => Except.error ("Invalid memory value \"" ++ ph.memory ++ "\"")
      | some mem =>
        (parsePhases rest).map
          (fun s => ⟨ph.seconds, ⟨cpu.milliValue, mem.value, ph.gpu⟩⟩ :: s)

/-- parseSimSpec reads the "simSpec" annotation of a pod and validates it
(simspec source file); a pod with no such annotation fails with the
missing-spec error. -/
def parseSimSpec (pod : Pod) : Except String (List simSpecPhase) :=
  match pod.annotations with
  | none => Except.error "simSpec not defined"
  | some phases => parsePhases phases

/-- simPodStatus is the admission outcome stored in a record (podmap
source file): accepted (`ok`) or rejected over capacity. -/
inductive simPodStatus where
  | ok
  | overCapacity
deriving DecidableEq, BEq, Repr

/-- simPod is a stored workload record: pod payload, start time
(nanoseconds), admission outcome, and the parsed phase plan. -/
structure simPod where
  pod : Pod
  startTime : Int
  status : simPodStatus
  spec : List simSpecPhase
deriving DecidableEq, Repr

/-- passedSecondsAt computes `int32(now.Sub(startTime).Seconds())`:
the nanosecond difference truncated toward zero to whole seconds. -/
def passedSecondsAt (now startTime : Int) : Int :=
  Int.tdiv (now - startTime) 1000000000

/-- resourceUsageAux is the accumulator loop of `resourceUsage`: walk the
phases keeping a running sum of durations, returning the demand of the
first phase whose cumulative upper bound exceeds the elapsed time, and
the zero vector after the last phase. -/
def resourceUsageAux (passed : Int) : Int → List simSpecPhase → simResource
  | _, [] => simResource.zero
  | acc, ph :: rest =>
    if passed < acc + ph.seconds then ph.resource
    else resourceUsageAux passed (acc + ph.seconds) rest

/-- resourceUsageList runs the phase walk from a zero duration offset. -/
def resourceUsageList (spec : List simSpecPhase) (passed : Int) : simResource :=
  resourceUsageAux passed 0 spec

/-- resourceUsage of a stored record at a given elapsed time. -/
def simPod.resourceUsage (p : simPod) (passed : Int) : simResource :=
  resourceUsageList p.spec passed

/-- totalSecondsList sums all phase durations with a running accumulator,
as the Go loop does. -/
def totalSecondsList (spec : List simSpecPhase) : Int :=
  spec.foldl (fun a ph => a + ph.seconds) 0

/-- totalSeconds of a stored record. -/
def simPod.totalSeconds (p : simPod) : Int :=
  totalSecondsList p.spec

/-- isTerminated holds when the elapsed time has reached the total
declared duration (`passedSeconds >= p.totalSeconds()`). -/
def simPod.isTerminated (p : simPod) (passed : Int) : Bool :=
  decide (p.totalSeconds ≤ passed)

/-- podMap models the concurrent pod registry as an association list;
the sync.Map operations become pure load/store/delete. -/
abbrev podMap := List (String × simPod)

/-- pmLoad looks a record up by key. -/
def pmLoad (key : String) : podMap → Option simPod
  | [] => none
  | kv :: rest => if kv.1 = key then some kv.2 else pmLoad key rest

/-- pmStore upserts a record: it replaces the entry for the key when one
exists and appends otherwise, the per-key semantics of sync.Map Store. -/
def pmStore (key : String) (v : simPod) : podMap → podMap
  | [] => [(key, v)]
  | kv :: rest =>
    if kv.1 = key then (key, v) :: rest else kv :: pmStore key v rest

/-- pmDelete removes any entry for the key. -/
def pmDelete (key : String) (l : podMap) : podMap :=
  l.filter (fun kv => kv.1 ≠ key)

/-- listPods returns the stored pod payloads (`podMap.listPods`). -/
def listPods (l : podMap) : List Pod :=
  l.map (fun kv => kv.2.pod)

/-- NodeCapacity is the static node ceiling: CPU in milli-units, memory
in bytes, an optional GPU limit, and the maximum pod count. -/
structure NodeCapacity where
  milliCPU : Int
  memory : Int
  gpu : Option Int
  pods : Int
deriving DecidableEq, Repr

/-- Modelled from the spec: `isOverCapacity` is not in the snapshot; the
spec rejects when projected CPU or memory strictly exceeds capacity, or
when a GPU limit is declared and projected GPU strictly exceeds it. -/
def isOverCapacity (req : simResource) (cap : NodeCapacity) : Bool :=
  decide (cap.milliCPU < req.milliCPU) || decide (cap.memory < req.memory) ||
    (match cap.gpu with
     | none => false
     | some g => decide (g < req.gpu))

/-- Modelled from the spec: `getResourceReq` is not in the snapshot; the
spec says the candidate demand is the workload phase-0 demand, which is
what will be true at the instant of admission (zero for an empty or
unparsable plan). -/
def getResourceReq (pod : Pod) : simResource :=
  match parseSimSpec pod with
  | Except.ok (ph :: _) => ph.resource
  | _ => simResource.zero

/-- Provider state: the registry and the node capacity (the capacity is
loaded once at startup and never mutated by the engine). -/
structure Provider where
  pods : podMap
  capacity : NodeCapacity

/-- totalResourceReqList is the admission-time aggregate demand: for each
stored record that is accepted and not yet terminated at `now`, it adds
`getResourceReq` of the stored payload (sim.go totalResourceReq). -/
def totalResourceReqList (l : podMap) (now : Int) : simResource :=
  l.foldl
    (fun acc kv =>
      let passed := passedSecondsAt now kv.2.startTime
      if kv.2.status == simPodStatus.ok && !kv.2.isTerminated passed then
        acc.add (getResourceReq kv.2.pod)
      else acc)
    simResource.zero

/-- runningPodsNum counts stored records that are accepted and not yet
terminated at `now`. -/
def runningPodsNumList (l : podMap) (now : Int) : Int :=
  l.foldl
    (fun acc kv =>
      let passed := passedSecondsAt now kv.2.startTime
      if kv.2.status == simPodStatus.ok && !kv.2.isTerminated passed then
        acc + 1
      else acc)
    0

/-- specCurrentDemand follows the words of the spec, for comparison with
the code: sum, over every accepted not-yet-terminated record, the
instantaneous phase demand at that record's own elapsed time (the value
resourceUsage returns for now minus startTime). -/
def specCurrentDemand (l : podMap) (now : Int) : simResource :=
  l.foldl
    (fun acc kv =>
      let passed := passedSecondsAt now kv.2.startTime
      if kv.2.status == simPodStatus.ok && !kv.2.isTerminated passed then
        acc.add (kv.2.resourceUsage passed)
      else acc)
    simResource.zero

/-- buildKeyFromNames derives the registry key from namespace and name. -/
def buildKeyFromNames (ns name : String) : Except String String :=
  Except.ok (ns ++ "-" ++ name)

/-- buildKey validates that namespace and name are nonempty and derives
the registry key. -/
def buildKey (pod : Pod) : Except String String :=
  if pod.nspace = "" then Except.error "pod namespace not found"
  else if pod.name = "" then Except.error "pod name not found"
  else buildKeyFromNames pod.nspace pod.name

/-- createPod embeds `Provider.CreatePod`: build the key, parse the
profile, decide admission from projected demand and running pod count,
and store the record with the decided outcome; a capacity rejection is a
stored outcome, not an error. -/
def createPod (p : Provider) (pod : Pod) (now : Int) : Except String Provider :=
  match buildKey pod with
  | Except.error e => Except.error e
  | Except.ok key =>
    match parseSimSpec pod with
    | Except.error e => Except.error e
    | Except.ok spec =>
      let newTotalReq := (totalResourceReqList p.pods now).add (getResourceReq pod)
      let status :=
        if isOverCapacity newTotalReq p.capacity
            || decide (p.capacity.pods ≤ runningPodsNumList p.pods now) then
          simPodStatus.overCapacity
        else simPodStatus.ok
      Except.ok { p with pods := pmStore key ⟨pod, now, status, spec⟩ p.pods }

/-- updatePod embeds `Provider.UpdatePod`: not-found error when the key
is absent, otherwise replace only the pod payload of the stored record. -/
def updatePod (p : Provider) (pod : Pod) : Except String Provider :=
  match buildKey pod with
  | Except.error e => Except.error e
  | Except.ok key =>
    match pmLoad key p.pods with
    | none => Except.error ("pod \"" ++ key ++ "\" does not exist")
    | some sp => Except.ok { p with pods := pmStore key { sp with pod := pod } p.pods }

/-- deletePod embeds `Provider.DeletePod`. -/
def deletePod (p : Provider) (pod : Pod) : Except String Provider :=
  match buildKey pod with
  | Except.error e => Except.error e
  | Except.ok key => Except.ok { p with pods := pmDelete key p.pods }

/-- PodPhase is the subset of pod phases the engine emits. -/
inductive PodPhase where
  | pending
  | running
  | succeeded
  | failed
deriving DecidableEq, Repr

/-- PodConditionType covers the three synthetic readiness conditions. -/
inductive PodConditionType where
  | initialized
  | ready
  | scheduled
deriving DecidableEq, Repr

/-- PodCondition pairs a condition type with its boolean status. -/
structure PodCondition where
  condType : PodConditionType
  status : Bool
deriving DecidableEq, Repr

/-- ContainerState mirrors the two container states the engine builds. -/
inductive ContainerState where
  | running (startedAt : Int)
  | terminated (exitCode : Int) (reason message : String)
      (startedAt finishedAt : Int)
deriving DecidableEq, Repr

/-- ContainerStatus is one synthesized container status entry. -/
structure ContainerStatus where
  name : String
  image : String
  ready : Bool
  restartCount : Int
  state : ContainerState
deriving DecidableEq, Repr

/-- PodStatus mirrors the fields of `v1.PodStatus` the engine writes;
unset Go fields are the empty string, `none`, or the empty list. -/
structure PodStatus where
  phase : PodPhase
  reason : String
  message : String
  hostIP : String
  podIP : String
  startTime : Option Int
  conditions : List PodCondition
  containerStatuses : List ContainerStatus
deriving DecidableEq, Repr

/-- buildPodStatus fills the shared parts of a status: fixed host and pod
IPs, the three readiness conditions, and one container status per
declared container, all sharing the given state. -/
def buildPodStatus (pod : simPod) (phase : PodPhase) (startTime : Int)
    (containerState : ContainerState) : PodStatus :=
  { phase := phase
    reason := ""
    message := ""
    hostIP := "1.2.3.4"
    podIP := "5.6.7.8"
    startTime := some startTime
    conditions :=
      [⟨PodConditionType.initialized, true⟩,
       ⟨PodConditionType.ready, true⟩,
       ⟨PodConditionType.scheduled, true⟩]
    containerStatuses :=
      pod.pod.containers.map
        (fun c => ⟨c.name, c.image, true, 0, containerState⟩) }

/-- getPodStatus embeds the switch body of `Provider.GetPodStatus` as a
pure function of the stored record and `now`. -/
def getPodStatus (pod : simPod) (now : Int) : PodStatus :=
  match pod.status with
  | simPodStatus.overCapacity =>
    { phase := PodPhase.failed
      reason := "CapacityExceeded"
      message := "Pod cannot be started due to exceeded capacity"
      hostIP := ""
      podIP := ""
      startTime := none
      conditions := []
      containerStatuses := [] }
  | simPodStatus.ok =>
    let passed := passedSecondsAt now pod.startTime
    if pod.isTerminated passed then
      buildPodStatus pod PodPhase.succeeded pod.startTime
        (ContainerState.terminated 0 "Succeeded"
          "All containers in the pod have voluntarily terminated"
          pod.startTime (pod.startTime + pod.totalSeconds * 1000000000))
    else
      buildPodStatus pod PodPhase.running pod.startTime
        (ContainerState.running pod.startTime)

namespace simpod

/-- RunningPod is the record type of the helper package simpod. -/
structure RunningPod where
  pod : Pod
  attainedSeconds : Int
deriving DecidableEq, Repr

/-- PodMap models the registry of the helper package simpod. -/
abbrev PodMap := List (String × RunningPod)

/-- rangeFuel is a step-indexed embedding of the Range method of PodMap
in package simpod, whose whole body is the single call `m.Range(f)` — a
recursive call to the method itself. Each unit of fuel funds one
unfolding of that call; a result of `none` means the call has not
returned within the given number of steps. -/
def rangeFuel : Nat → PodMap → (String → RunningPod → Bool) → Option Unit
  | 0, _, _ => none
  | n + 1, m, f => rangeFuel n m f

end simpod

/-- cumSeconds is the cumulative duration of the first `i` phases, the
lower bound of the window of phase `i`. -/
def cumSeconds (spec : List simSpecPhase) (i : Nat) : Int :=
  ((spec.take i).map (fun ph => ph.seconds)).sum

theorem cumSeconds_zero (spec : List simSpecPhase) : cumSeconds spec 0 = 0 := rfl

theorem cumSeconds_cons_succ (ph : simSpecPhase) (rest : List simSpecPhase)
    (i : Nat) :
    cumSeconds (ph :: rest) (i + 1) = ph.seconds + cumSeconds rest i := by
  simp [cumSeconds, List.take_succ_cons]

theorem foldl_add_seconds (spec : List simSpecPhase) :
    ∀ a : Int, spec.foldl (fun b ph => b + ph.seconds) a
      = a + (spec.map (fun ph => ph.seconds)).sum := by
  induction spec with
  | nil => intro a; simp
  | cons ph rest ih =>
    intro a
    simp only [List.foldl_cons, List.map_cons, List.sum_cons, ih]
    ring

theorem totalSecondsList_eq_sum (spec : List simSpecPhase) :
    totalSecondsList spec = (spec.map (fun ph => ph.seconds)).sum := by
  simpa using foldl_add_seconds spec 0

theorem seconds_sum_nonneg (spec : List simSpecPhase)
    (hnn : ∀ ph ∈ spec, 0 ≤ ph.seconds) :
    0 ≤ (spec.map (fun ph => ph.seconds)).sum := by
  apply List.sum_nonneg
  intro x hx
  obtain ⟨ph, hph, rfl⟩ := List.mem_map.mp hx
  exact hnn ph hph

theorem cumSeconds_nonneg (spec : List simSpecPhase) (i : Nat)
    (hnn : ∀ ph ∈ spec, 0 ≤ ph.seconds) :
    0 ≤ cumSeconds spec i := by
  apply seconds_sum_nonneg
  intro ph hph
  exact hnn ph ((List.take_sublist i spec).mem hph)

theorem resourceUsageAux_done (spec : List simSpecPhase) :
    ∀ acc passed : Int, (∀ ph ∈ spec, 0 ≤ ph.seconds) →
      acc + (spec.map (fun ph => ph.seconds)).sum ≤ passed →
      resourceUsageAux passed acc spec = simResource.zero := by
  induction spec with
  | nil => intro acc passed _ _; rfl
  | cons ph rest ih =>
    intro acc passed hnn hle
    have hrest : 0 ≤ (rest.map (fun ph => ph.seconds)).sum :=
      seconds_sum_nonneg rest (fun x hx => hnn x (List.mem_cons_of_mem _ hx))
    simp only [List.map_cons, List.sum_cons] at hle
    have hcond : ¬ passed < acc + ph.seconds := by omega
    simp only [resourceUsageAux, if_neg hcond]
    exact ih (acc + ph.seconds) passed
      (fun x hx => hnn x (List.mem_cons_of_mem _ hx)) (by omega)

theorem resourceUsageAux_window (spec : List simSpecPhase) :
    ∀ (acc passed : Int) (i : Nat) (hi : i < spec.length),
      (∀ ph ∈ spec, 0 ≤ ph.seconds) →
      acc + cumSeconds spec i ≤ passed →
      passed < acc + cumSeconds spec i + (spec.get ⟨i, hi⟩).seconds →
      resourceUsageAux passed acc spec = (spec.get ⟨i, hi⟩).resource := by
  induction spec with
  | nil => intro acc passed i hi; exact absurd hi (by simp)
  | cons ph rest ih =>
    intro acc passed i hi hnn hlo hhi
    cases i with
    | zero =>
      simp only [cumSeconds_zero, add_zero] at hlo hhi
      have hcond : passed < acc + ph.seconds := by
        simpa using hhi
      simp only [resourceUsageAux, if_pos hcond]
      rfl
    | succ j =>
      have hrest : ∀ x ∈ rest, 0 ≤ x.seconds :=
        fun x hx => hnn x (List.mem_cons_of_mem _ hx)
      have hget : (ph :: rest).get ⟨j + 1, hi⟩
          = rest.get ⟨j, Nat.lt_of_succ_lt_succ hi⟩ := rfl
      rw [cumSeconds_cons_succ] at hlo hhi
      rw [hget] at hhi ⊢
      have hcum : 0 ≤ cumSeconds rest j := cumSeconds_nonneg rest j hrest
      have hcond : ¬ passed < acc + ph.seconds := by omega
      simp only [resourceUsageAux, if_neg hcond]
      exact ih (acc + ph.seconds) passed j (Nat.lt_of_succ_lt_succ hi) hrest
        (by omega) (by omega)

theorem usage_coverage (spec : List simSpecPhase) :
    ∀ passed : Int, (∀ ph ∈ spec, 0 ≤ ph.seconds) → 0 ≤ passed →
      passed < (spec.map (fun ph => ph.seconds)).sum →
      ∃ i, ∃ hi : i < spec.length,
        cumSeconds spec i ≤ passed ∧
        passed < cumSeconds spec i + (spec.get ⟨i, hi⟩).seconds := by
  induction spec with
  | nil =>
    intro passed _ h0 hlt
    simp only [List.map_nil, List.sum_nil] at hlt
    omega
  | cons ph rest ih =>
    intro passed hnn h0 hlt
    by_cases hc : passed < ph.seconds
    · refine ⟨0, by simp, ?_, ?_⟩
      · simpa [cumSeconds_zero] using h0
      · simpa [cumSeconds_zero] using hc
    · push_neg at hc
      simp only [List.map_cons, List.sum_cons] at hlt
      obtain ⟨i, hi, h1, h2⟩ := ih (passed - ph.seconds)
        (fun x hx => hnn x (List.mem_cons_of_mem _ hx)) (by omega) (by omega)
      refine ⟨i + 1, Nat.succ_lt_succ hi, ?_, ?_⟩
      · rw [cumSeconds_cons_succ]; omega
      · rw [cumSeconds_cons_succ]
        have hget : ((ph :: rest).get ⟨i + 1, Nat.succ_lt_succ hi⟩).seconds
            = (rest.get ⟨i, hi⟩).seconds := rfl
        rw [hget]
        omega

/-- C3: for a phase plan with nonnegative durations (the spec invariant),
resourceUsage at any elapsed time inside the window of phase `i` equals
the demand of that phase; every elapsed time in `[0, totalSeconds)` lies
in the window of some phase; at or after totalSeconds the usage is the
zero vector; and the empty plan has totalSeconds zero, so a record with
an empty plan is already terminated at every nonnegative elapsed time. -/
theorem c3_resource_usage_phase_windows (spec : List simSpecPhase)
    (hnn : ∀ ph ∈ spec, 0 ≤ ph.seconds) :
    (∀ (passed : Int) (i : Nat) (hi : i < spec.length),
        cumSeconds spec i ≤ passed →
        passed < cumSeconds spec i + (spec.get ⟨i, hi⟩).seconds →
        resourceUsageList spec passed = (spec.get ⟨i, hi⟩).resource)
    ∧ (∀ passed : Int, 0 ≤ passed → passed < totalSecondsList spec →
        ∃ i, ∃ hi : i < spec.length,
          cumSeconds spec i ≤ passed ∧
          passed < cumSeconds spec i + (spec.get ⟨i, hi⟩).seconds)
    ∧ (∀ passed : Int, totalSecondsList spec ≤ passed →
        resourceUsageList spec passed = simResource.zero)
    ∧ totalSecondsList [] = 0
    ∧ (∀ (p : simPod), p.spec = [] → ∀ passed : Int, 0 ≤ passed →
        p.isTerminated passed = true) := by
  refine ⟨?_, ?_, ?_, rfl, ?_⟩
  · intro passed i hi hlo hhi
    exact resourceUsageAux_window spec 0 passed i hi hnn
      (by simpa using hlo) (by simpa using hhi)
  · intro passed h0 hlt
    rw [totalSecondsList_eq_sum] at hlt
    exact usage_coverage spec passed hnn h0 hlt
  · intro passed hge
    rw [totalSecondsList_eq_sum] at hge
    exact resourceUsageAux_done spec 0 passed hnn (by simpa using hge)
  · intro p hempty passed h0
    simp [simPod.isTerminated, simPod.totalSeconds, hempty, totalSecondsList]
    omega

/-- Witness for C3 at a concrete two-phase plan: elapsed 7 falls in the
window of phase 1, elapsed 12 is past the total of 10 seconds. -/
theorem c3_resource_usage_phase_windows_witness :
    (∀ ph ∈ [(⟨5, ⟨100, 1, 0⟩⟩ : simSpecPhase), ⟨5, ⟨900, 1, 0⟩⟩],
      0 ≤ ph.seconds)
    ∧ resourceUsageList [⟨5, ⟨100, 1, 0⟩⟩, ⟨5, ⟨900, 1, 0⟩⟩] 7 = ⟨900, 1, 0⟩
    ∧ resourceUsageList [⟨5, ⟨100, 1, 0⟩⟩, ⟨5, ⟨900, 1, 0⟩⟩] 12
        = simResource.zero := by
  have h := c3_resource_usage_phase_windows
    [⟨5, ⟨100, 1, 0⟩⟩, ⟨5, ⟨900, 1, 0⟩⟩] (by decide)
  refine ⟨by decide, ?_, h.2.2.1 12 (by decide)⟩
  exact (h.1 7 1 (by decide) (by decide) (by decide)).trans (by decide)

/-- C2: getPodStatus is a pure function of the stored record and `now`;
a rejected record yields, at every `now`, the fixed Failed status with
reason CapacityExceeded and no synthesized container statuses or
conditions; an accepted record whose elapsed whole seconds have reached
the plan total yields Succeeded with start time `startTime` and one
terminated container status (exit code 0, finished at `startTime` plus
the total duration) per declared container; otherwise it yields Running
with one running container status started at `startTime` per declared
container. -/
theorem c2_get_pod_status_cases (sp : simPod) (now : Int) :
    (sp.status = simPodStatus.overCapacity →
      getPodStatus sp now =
        ⟨PodPhase.failed, "CapacityExceeded",
          "Pod cannot be started due to exceeded capacity",
          "", "", none, [], []⟩)
    ∧ (sp.status = simPodStatus.ok →
        totalSecondsList sp.spec ≤ passedSecondsAt now sp.startTime →
        (getPodStatus sp now).phase = PodPhase.succeeded
          ∧ (getPodStatus sp now).startTime = some sp.startTime
          ∧ (getPodStatus sp now).containerStatuses
              = sp.pod.containers.map (fun c =>
                  ⟨c.name, c.image, true, 0,
                    ContainerState.terminated 0 "Succeeded"
                      "All containers in the pod have voluntarily terminated"
                      sp.startTime
                      (sp.startTime + totalSecondsList sp.spec * 1000000000)⟩))
    ∧ (sp.status = simPodStatus.ok →
        passedSecondsAt now sp.startTime < totalSecondsList sp.spec →
        (getPodStatus sp now).phase = PodPhase.running
          ∧ (getPodStatus sp now).startTime = some sp.startTime
          ∧ (getPodStatus sp now).containerStatuses
              = sp.pod.containers.map (fun c =>
                  ⟨c.name, c.image, true, 0,
                    ContainerState.running sp.startTime⟩)) := by
  refine ⟨?_, ?_, ?_⟩
  · intro h
    simp [getPodStatus, h]
  · intro h hterm
    have ht : sp.isTerminated (passedSecondsAt now sp.startTime) = true := by
      simp only [simPod.isTerminated, simPod.totalSeconds, decide_eq_true_eq]
      exact hterm
    simp [getPodStatus, h, ht, buildPodStatus, simPod.totalSeconds]
  · intro h hrun
    have ht : sp.isTerminated (passedSecondsAt now sp.startTime) = false := by
      simp only [simPod.isTerminated, simPod.totalSeconds,
        decide_eq_false_iff_not]
      omega
    simp [getPodStatus, h, ht, buildPodStatus]

/-- Witness for C2 at concrete records: an accepted one-container record
with a 10 second plan queried at 20 and at 5 elapsed seconds, and a
rejected record queried at an arbitrary instant. -/
theorem c2_get_pod_status_cases_witness :
    (getPodStatus
        ⟨⟨"default", "w", none, [⟨"c1", "img"⟩]⟩, 0, simPodStatus.ok,
          [⟨10, ⟨500, 100, 0⟩⟩]⟩ 20000000000).phase = PodPhase.succeeded
    ∧ (getPodStatus
        ⟨⟨"default", "w", none, [⟨"c1", "img"⟩]⟩, 0, simPodStatus.ok,
          [⟨10, ⟨500, 100, 0⟩⟩]⟩ 5000000000).phase = PodPhase.running
    ∧ getPodStatus
        ⟨⟨"default", "w", none, [⟨"c1", "img"⟩]⟩, 0,
          simPodStatus.overCapacity, [⟨10, ⟨500, 100, 0⟩⟩]⟩ 123
      = ⟨PodPhase.failed, "CapacityExceeded",
          "Pod cannot be started due to exceeded capacity",
          "", "", none, [], []⟩ := by
  refine ⟨?_, ?_, ?_⟩
  · exact ((c2_get_pod_status_cases
      ⟨⟨"default", "w", none, [⟨"c1", "img"⟩]⟩, 0, simPodStatus.ok,
        [⟨10, ⟨500, 100, 0⟩⟩]⟩ 20000000000).2.1 rfl (by decide)).1
  · exact ((c2_get_pod_status_cases
      ⟨⟨"default", "w", none, [⟨"c1", "img"⟩]⟩, 0, simPodStatus.ok,
        [⟨10, ⟨500, 100, 0⟩⟩]⟩ 5000000000).2.2 rfl (by decide)).1
  · exact (c2_get_pod_status_cases
      ⟨⟨"default", "w", none, [⟨"c1", "img"⟩]⟩, 0,
        simPodStatus.overCapacity, [⟨10, ⟨500, 100, 0⟩⟩]⟩ 123).1 rfl

theorem totalReq_foldl_filter (now : Int) :
    ∀ (l : podMap) (a : simResource),
      l.foldl
        (fun acc kv =>
          if kv.2.status == simPodStatus.ok
              && !kv.2.isTerminated (passedSecondsAt now kv.2.startTime) then
            acc.add (getResourceReq kv.2.pod)
          else acc) a
      = ((l.filter (fun kv => kv.2.status == simPodStatus.ok
            && !kv.2.isTerminated (passedSecondsAt now kv.2.startTime))).map
          (fun kv => getResourceReq kv.2.pod)).foldl simResource.add a := by
  intro l
  induction l with
  | nil => intro a; rfl
  | cons kv rest ih =>
    intro a
    rw [List.foldl_cons, List.filter_cons]
    by_cases hc : (kv.2.status == simPodStatus.ok
        && !kv.2.isTerminated (passedSecondsAt now kv.2.startTime)) = true
    · rw [if_pos hc, if_pos hc, List.map_cons, List.foldl_cons]
      exact ih _
    · rw [if_neg hc, if_neg hc]
      exact ih _

/-- C1 (amended): the admission-time aggregate is the fold of the fixed
per-workload quantity getResourceReq of the stored payload over exactly
the accepted, not-yet-terminated records; the elapsed time of a record
only decides whether it is counted, never which phase demand it
contributes; and the quantity getResourceReq itself is the phase-0 demand
of the parsed plan (the modelling the spec prescribes for the candidate). -/
theorem c1_total_resource_req_fixed_per_pod (l : podMap) (now : Int) :
    totalResourceReqList l now
      = ((l.filter (fun kv => kv.2.status == simPodStatus.ok
            && !kv.2.isTerminated (passedSecondsAt now kv.2.startTime))).map
          (fun kv => getResourceReq kv.2.pod)).foldl simResource.add
          simResource.zero
    ∧ (∀ (pod : Pod) (ph : simSpecPhase) (rest : List simSpecPhase),
        parseSimSpec pod = Except.ok (ph :: rest) →
        getResourceReq pod = ph.resource) := by
  constructor
  · exact totalReq_foldl_filter now l simResource.zero
  · intro pod ph rest hp
    simp [getResourceReq, hp]

/-- Witness for C1 (amended) at a one-record registry. -/
theorem c1_total_resource_req_fixed_per_pod_witness :
    totalResourceReqList
        [("default-w1",
          ⟨⟨"default", "w1", some [⟨5, "100m", "1", 0⟩, ⟨5, "900m", "1", 0⟩],
              []⟩, 0, simPodStatus.ok,
            [⟨5, ⟨100, 1, 0⟩⟩, ⟨5, ⟨900, 1, 0⟩⟩]⟩)] 7000000000
      = ((([("default-w1",
          (⟨⟨"default", "w1", some [⟨5, "100m", "1", 0⟩, ⟨5, "900m", "1", 0⟩],
              []⟩, 0, simPodStatus.ok,
            [⟨5, ⟨100, 1, 0⟩⟩, ⟨5, ⟨900, 1, 0⟩⟩]⟩ : simPod))] : podMap).filter
            (fun kv => kv.2.status == simPodStatus.ok
              && !kv.2.isTerminated
                  (passedSecondsAt 7000000000 kv.2.startTime))).map
          (fun kv => getResourceReq kv.2.pod)).foldl simResource.add
          simResource.zero
    ∧ getResourceReq
        ⟨"default", "w1", some [⟨5, "100m", "1", 0⟩, ⟨5, "900m", "1", 0⟩], []⟩
      = ⟨100, 1, 0⟩ := by
  have h := c1_total_resource_req_fixed_per_pod
    [("default-w1",
      ⟨⟨"default", "w1", some [⟨5, "100m", "1", 0⟩, ⟨5, "900m", "1", 0⟩],
          []⟩, 0, simPodStatus.ok,
        [⟨5, ⟨100, 1, 0⟩⟩, ⟨5, ⟨900, 1, 0⟩⟩]⟩)] 7000000000
  refine ⟨h.1, ?_⟩
  exact h.2
    ⟨"default", "w1", some [⟨5, "100m", "1", 0⟩, ⟨5, "900m", "1", 0⟩], []⟩
    ⟨5, ⟨100, 1, 0⟩⟩ [⟨5, ⟨900, 1, 0⟩⟩] rfl

/-- Counterexample for C1 as stated: a single stored accepted workload in
its second phase (elapsed 7 of a 5+5 second plan, phase demands 100m and
900m of CPU). The admission aggregate computed by the code is the fixed
getResourceReq of the payload (the phase-0 demand, 100m), not the
instantaneous phase demand at the workload's own elapsed time (900m), so
the code value differs from the value the claim prescribes. -/
theorem c1_counterexample_fixed_vs_instantaneous :
    totalResourceReqList
        [("default-w1",
          ⟨⟨"default", "w1", some [⟨5, "100m", "1", 0⟩, ⟨5, "900m", "1", 0⟩],
              []⟩, 0, simPodStatus.ok,
            [⟨5, ⟨100, 1, 0⟩⟩, ⟨5, ⟨900, 1, 0⟩⟩]⟩)] 7000000000
      = ⟨100, 1, 0⟩
    ∧ specCurrentDemand
        [("default-w1",
          ⟨⟨"default", "w1", some [⟨5, "100m", "1", 0⟩, ⟨5, "900m", "1", 0⟩],
              []⟩, 0, simPodStatus.ok,
            [⟨5, ⟨100, 1, 0⟩⟩, ⟨5, ⟨900, 1, 0⟩⟩]⟩)] 7000000000
      = ⟨900, 1, 0⟩
    ∧ totalResourceReqList
        [("default-w1",
          ⟨⟨"default", "w1", some [⟨5, "100m", "1", 0⟩, ⟨5, "900m", "1", 0⟩],
              []⟩, 0, simPodStatus.ok,
            [⟨5, ⟨100, 1, 0⟩⟩, ⟨5, ⟨900, 1, 0⟩⟩]⟩)] 7000000000
      ≠ specCurrentDemand
        [("default-w1",
          ⟨⟨"default", "w1", some [⟨5, "100m", "1", 0⟩, ⟨5, "900m", "1", 0⟩],
              []⟩, 0, simPodStatus.ok,
            [⟨5, ⟨100, 1, 0⟩⟩, ⟨5, ⟨900, 1, 0⟩⟩]⟩)] 7000000000 := by
  refine ⟨by decide, by decide, by decide⟩

theorem pmLoad_pmStore_self (key : String) (v : simPod) :
    ∀ l : podMap, pmLoad key (pmStore key v l) = some v := by
  intro l
  induction l with
  | nil => simp [pmStore, pmLoad]
  | cons kv rest ih =>
    by_cases h : kv.1 = key
    · simp [pmStore, pmLoad, h]
    · simp [pmStore, pmLoad, h, ih]

theorem pmLoad_pmStore_other (key key2 : String) (v : simPod)
    (h : key2 ≠ key) :
    ∀ l : podMap, pmLoad key2 (pmStore key v l) = pmLoad key2 l := by
  intro l
  induction l with
  | nil =>
    simp only [pmStore, pmLoad]
    rw [if_neg (fun hh : key = key2 => h hh.symm)]
  | cons kv rest ih =>
    simp only [pmStore]
    by_cases hk : kv.1 = key
    · rw [if_pos hk]
      simp only [pmLoad, hk]
      rw [if_neg (fun hh : key = key2 => h hh.symm),
        if_neg (fun hh : key = key2 => h hh.symm)]
    · rw [if_neg hk]
      simp only [pmLoad, ih]

theorem pmStore_mem (key : String) (v : simPod) :
    ∀ l : podMap, (key, v) ∈ pmStore key v l := by
  intro l
  induction l with
  | nil => simp [pmStore]
  | cons kv rest ih =>
    by_cases h : kv.1 = key
    · simp [pmStore, h]
    · simp only [pmStore, if_neg h]
      exact List.mem_cons_of_mem _ ih

theorem skipped_entry_total (l : podMap) (e : String × simPod) (t : Int)
    (h : e.2.status = simPodStatus.overCapacity) :
    totalResourceReqList (l ++ [e]) t = totalResourceReqList l t := by
  simp only [totalResourceReqList, List.foldl_append, List.foldl_cons,
    List.foldl_nil, h]
  rfl

theorem skipped_entry_count (l : podMap) (e : String × simPod) (t : Int)
    (h : e.2.status = simPodStatus.overCapacity) :
    runningPodsNumList (l ++ [e]) t = runningPodsNumList l t := by
  simp only [runningPodsNumList, List.foldl_append, List.foldl_cons,
    List.foldl_nil, h]
  rfl

/-- C5: with a valid key and a well-formed profile, createPod returns no
error whatever the admission outcome; the record is stored under the key
with start time `now` and the parsed plan, and the payload appears in the
pod listing. A record stored with the rejected outcome contributes
nothing to the aggregate demand or to the running pod count at any
instant. -/
theorem c5_create_pod_stores_regardless (p : Provider) (pod : Pod)
    (now : Int) (key : String) (spec : List simSpecPhase)
    (hkey : buildKey pod = Except.ok key)
    (hspec : parseSimSpec pod = Except.ok spec) :
    (∃ q st, createPod p pod now = Except.ok q
      ∧ pmLoad key q.pods = some ⟨pod, now, st, spec⟩
      ∧ pod ∈ listPods q.pods)
    ∧ (∀ (l : podMap) (e : String × simPod) (t : Int),
        e.2.status = simPodStatus.overCapacity →
        totalResourceReqList (l ++ [e]) t = totalResourceReqList l t
          ∧ runningPodsNumList (l ++ [e]) t = runningPodsNumList l t) := by
  constructor
  · simp only [createPod, hkey, hspec]
    refine ⟨_, _, rfl, pmLoad_pmStore_self _ _ _, ?_⟩
    exact List.mem_map.mpr ⟨(key, _), pmStore_mem _ _ _, rfl⟩
  · intro l e t h
    exact ⟨skipped_entry_total l e t h, skipped_entry_count l e t h⟩

/-- Witness for C5: a capacity-rejected workload (demand 2000m against a
1000m node) is still stored, loadable and listed, with no error. -/
theorem c5_create_pod_stores_regardless_witness :
    buildKey ⟨"default", "w2", some [⟨10, "2000m", "1Gi", 0⟩], []⟩
        = Except.ok "default-w2"
    ∧ parseSimSpec ⟨"default", "w2", some [⟨10, "2000m", "1Gi", 0⟩], []⟩
        = Except.ok [⟨10, ⟨2000, 1073741824, 0⟩⟩]
    ∧ ∃ q st,
        createPod ⟨[], ⟨1000, 1073741824, none, 10⟩⟩
            ⟨"default", "w2", some [⟨10, "2000m", "1Gi", 0⟩], []⟩ 0
          = Except.ok q
        ∧ pmLoad "default-w2" q.pods
            = some ⟨⟨"default", "w2", some [⟨10, "2000m", "1Gi", 0⟩], []⟩,
                0, st, [⟨10, ⟨2000, 1073741824, 0⟩⟩]⟩
        ∧ ⟨"default", "w2", some [⟨10, "2000m", "1Gi", 0⟩], []⟩
            ∈ listPods q.pods := by
  refine ⟨rfl, rfl, ?_⟩
  exact (c5_create_pod_stores_regardless
    ⟨[], ⟨1000, 1073741824, none, 10⟩⟩
    ⟨"default", "w2", some [⟨10, "2000m", "1Gi", 0⟩], []⟩ 0 "default-w2"
    [⟨10, ⟨2000, 1073741824, 0⟩⟩] rfl rfl).1

/-- C6: updatePod on an absent key fails with the not-found error (the
functional embedding returns no new state, so the registry is untouched);
on a present key it succeeds and replaces only the pod payload of the
stored record, preserving its start time, admission outcome and plan, and
leaving every other key unchanged. -/
theorem c6_update_pod_frame (p : Provider) (pod : Pod) (key : String)
    (hkey : buildKey pod = Except.ok key) :
    (pmLoad key p.pods = none →
      updatePod p pod
        = Except.error ("pod \"" ++ key ++ "\" does not exist"))
    ∧ (∀ sp : simPod, pmLoad key p.pods = some sp →
        ∃ q, updatePod p pod = Except.ok q
          ∧ q.capacity = p.capacity
          ∧ pmLoad key q.pods = some ⟨pod, sp.startTime, sp.status, sp.spec⟩
          ∧ ∀ k2, k2 ≠ key → pmLoad k2 q.pods = pmLoad k2 p.pods) := by
  constructor
  · intro h
    simp [updatePod, hkey, h]
  · intro sp h
    simp only [updatePod, hkey, h]
    exact ⟨_, rfl, rfl, pmLoad_pmStore_self _ _ _,
      fun k2 hk2 => pmLoad_pmStore_other key k2 _ hk2 _⟩

/-- Witness for C6: updating an absent workload fails with not-found;
updating a present one replaces the payload and keeps the record fields. -/
theorem c6_update_pod_frame_witness :
    updatePod ⟨[], ⟨1000, 1073741824, none, 10⟩⟩
        ⟨"default", "w3", none, []⟩
      = Except.error "pod \"default-w3\" does not exist"
    ∧ ∃ q, updatePod
          ⟨[("default-w3",
              ⟨⟨"default", "w3", none, []⟩, 5, simPodStatus.ok,
                [⟨10, ⟨500, 100, 0⟩⟩]⟩)], ⟨1000, 1073741824, none, 10⟩⟩
          ⟨"default", "w3", none, [⟨"c1", "img"⟩]⟩
        = Except.ok q
      ∧ pmLoad "default-w3" q.pods
          = some ⟨⟨"default", "w3", none, [⟨"c1", "img"⟩]⟩, 5,
              simPodStatus.ok, [⟨10, ⟨500, 100, 0⟩⟩]⟩ := by
  constructor
  · exact (c6_update_pod_frame ⟨[], ⟨1000, 1073741824, none, 10⟩⟩
      ⟨"default", "w3", none, []⟩ "default-w3" rfl).1 rfl
  · obtain ⟨q, h1, _, h2, _⟩ := (c6_update_pod_frame
      ⟨[("default-w3",
          ⟨⟨"default", "w3", none, []⟩, 5, simPodStatus.ok,
            [⟨10, ⟨500, 100, 0⟩⟩]⟩)], ⟨1000, 1073741824, none, 10⟩⟩
      ⟨"default", "w3", none, [⟨"c1", "img"⟩]⟩ "default-w3" rfl).2
      ⟨⟨"default", "w3", none, []⟩, 5, simPodStatus.ok,
        [⟨10, ⟨500, 100, 0⟩⟩]⟩ rfl
    exact ⟨q, h1, h2⟩

/-- C4: admission comparisons are strict. When the projected aggregate
demand equals capacity in every declared resource dimension, the decision
depends only on the pod count: the candidate is stored accepted when the
running count plus one is at most maxPods, and stored rejected exactly
when the running count plus one exceeds maxPods — equality of demand with
capacity is never a rejection reason. -/
theorem c4_admission_boundary_strict (p : Provider) (pod : Pod) (now : Int)
    (key : String) (spec : List simSpecPhase)
    (hkey : buildKey pod = Except.ok key)
    (hspec : parseSimSpec pod = Except.ok spec)
    (hcpu : ((totalResourceReqList p.pods now).add
        (getResourceReq pod)).milliCPU = p.capacity.milliCPU)
    (hmem : ((totalResourceReqList p.pods now).add
        (getResourceReq pod)).memory = p.capacity.memory)
    (hgpu : ∀ g, p.capacity.gpu = some g →
        ((totalResourceReqList p.pods now).add (getResourceReq pod)).gpu
          = g) :
    (runningPodsNumList p.pods now + 1 ≤ p.capacity.pods →
      ∃ q, createPod p pod now = Except.ok q
        ∧ pmLoad key q.pods = some ⟨pod, now, simPodStatus.ok, spec⟩)
    ∧ (runningPodsNumList p.pods now + 1 > p.capacity.pods →
      ∃ q, createPod p pod now = Except.ok q
        ∧ pmLoad key q.pods
            = some ⟨pod, now, simPodStatus.overCapacity, spec⟩) := by
  have hx : ∀ z : Int, decide (z < z) = false := fun z => by simp
  have hover : isOverCapacity
      ((totalResourceReqList p.pods now).add (getResourceReq pod))
      p.capacity = false := by
    cases hg : p.capacity.gpu with
    | none => simp [isOverCapacity, hcpu, hmem, hg, hx]
    | some g => simp [isOverCapacity, hcpu, hmem, hg, hgpu g hg, hx]
  constructor
  · intro hcount
    have hc2 : ¬ p.capacity.pods ≤ runningPodsNumList p.pods now := by omega
    simp only [createPod, hkey, hspec, hover, Bool.false_or,
      decide_eq_false hc2]
    exact ⟨_, rfl, by simpa using pmLoad_pmStore_self key _ p.pods⟩
  · intro hcount
    have hc2 : p.capacity.pods ≤ runningPodsNumList p.pods now := by omega
    simp only [createPod, hkey, hspec, hover, Bool.false_or,
      decide_eq_true hc2]
    exact ⟨_, rfl, by simpa using pmLoad_pmStore_self key _ p.pods⟩

/-- Witness for C4: an empty node of capacity 1000m CPU, 1Gi memory and
one pod admits a candidate demanding exactly 1000m and 1Gi. -/
theorem c4_admission_boundary_strict_witness :
    (runningPodsNumList ([] : podMap) 0 + 1 ≤ (1 : Int))
    ∧ ∃ q, createPod ⟨[], ⟨1000, 1073741824, none, 1⟩⟩
          ⟨"default", "x", some [⟨10, "1000m", "1Gi", 0⟩], []⟩ 0
        = Except.ok q
      ∧ pmLoad "default-x" q.pods
          = some ⟨⟨"default", "x", some [⟨10, "1000m", "1Gi", 0⟩], []⟩, 0,
              simPodStatus.ok, [⟨10, ⟨1000, 1073741824, 0⟩⟩]⟩ := by
  refine ⟨by decide, ?_⟩
  exact (c4_admission_boundary_strict
    ⟨[], ⟨1000, 1073741824, none, 1⟩⟩
    ⟨"default", "x", some [⟨10, "1000m", "1Gi", 0⟩], []⟩ 0 "default-x"
    [⟨10, ⟨1000, 1073741824, 0⟩⟩] rfl rfl (by decide) (by decide)
    (fun g hg => nomatch hg)).1 (by decide)

theorem parsePhases_ok (phases : List simSpecPhaseJSON)
    (hq : ∀ ph ∈ phases,
      (parseQuantity ph.cpu).isSome ∧ (parseQuantity ph.memory).isSome) :
    parsePhases phases = Except.ok (phases.map (fun ph =>
      ⟨ph.seconds,
        ⟨((parseQuantity ph.cpu).map Quantity.milliValue).getD 0,
          ((parseQuantity ph.memory).map Quantity.value).getD 0,
          ph.gpu⟩⟩)) := by
  induction phases with
  | nil => rfl
  | cons ph rest ih =>
    obtain ⟨h1, h2⟩ := hq ph (List.mem_cons_self ph rest)
    obtain ⟨qc, hqc⟩ := Option.isSome_iff_exists.mp h1
    obtain ⟨qm, hqm⟩ := Option.isSome_iff_exists.mp h2
    have ihr := ih (fun x hx => hq x (List.mem_cons_of_mem _ hx))
    simp [parsePhases, hqc, hqm, ihr, Except.map]

/-- C7: when every CPU and memory string of the annotation parses as a
quantity, parseSimSpec succeeds and produces one phase per description
entry, with the duration carried over, the CPU quantity normalized to
milli-units, the memory quantity normalized to bytes, and the GPU count
carried through unchanged. -/
theorem c7_parse_normalizes_units (pod : Pod)
    (phases : List simSpecPhaseJSON)
    (hann : pod.annotations = some phases)
    (hq : ∀ ph ∈ phases,
      (parseQuantity ph.cpu).isSome ∧ (parseQuantity ph.memory).isSome) :
    parseSimSpec pod = Except.ok (phases.map (fun ph =>
      ⟨ph.seconds,
        ⟨((parseQuantity ph.cpu).map Quantity.milliValue).getD 0,
          ((parseQuantity ph.memory).map Quantity.value).getD 0,
          ph.gpu⟩⟩)) := by
  simp [parseSimSpec, hann, parsePhases_ok phases hq]

/-- Witness for C7: the profile with one phase of 10 seconds, cpu "500m"
and memory "1Gi" parses to one phase with milliCPU 500 and memoryBytes
2^30 (and GPU 0 carried through). -/
theorem c7_parse_normalizes_units_witness :
    (∀ ph ∈ [(⟨10, "500m", "1Gi", 0⟩ : simSpecPhaseJSON)],
      (parseQuantity ph.cpu).isSome ∧ (parseQuantity ph.memory).isSome)
    ∧ parseSimSpec ⟨"default", "w7", some [⟨10, "500m", "1Gi", 0⟩], []⟩
        = Except.ok [⟨10, ⟨500, 1073741824, 0⟩⟩] := by
  refine ⟨by decide, ?_⟩
  exact c7_parse_normalizes_units
    ⟨"default", "w7", some [⟨10, "500m", "1Gi", 0⟩], []⟩
    [⟨10, "500m", "1Gi", 0⟩] rfl (by decide)

theorem parsePhases_err (phases : List simSpecPhaseJSON)
    (hbad : ∃ ph ∈ phases,
      parseQuantity ph.cpu = none ∨ parseQuantity ph.memory = none) :
    ∃ raw pre post,
      (∃ ph ∈ phases, (raw = ph.cpu ∨ raw = ph.memory)
        ∧ parseQuantity raw = none)
      ∧ parsePhases phases = Except.error (pre ++ raw ++ post) := by
  induction phases with
  | nil =>
    obtain ⟨ph, hmem, _⟩ := hbad
    exact absurd hmem (by simp)
  | cons ph rest ih =>
    cases hc : parseQuantity ph.cpu with
    | none =>
      refine ⟨ph.cpu, "Invalid CPU value \"", "\"",
        ⟨ph, List.mem_cons_self ph rest, Or.inl rfl, hc⟩, ?_⟩
      simp [parsePhases, hc]
    | some qc =>
      cases hm : parseQuantity ph.memory with
      | none =>
        refine ⟨ph.memory, "Invalid memory value \"", "\"",
          ⟨ph, List.mem_cons_self ph rest, Or.inr rfl, hm⟩, ?_⟩
        simp [parsePhases, hc, hm]
      | some qm =>
        have hbad2 : ∃ ph2 ∈ rest,
            parseQuantity ph2.cpu = none
              ∨ parseQuantity ph2.memory = none := by
          obtain ⟨ph2, hmem2, hor⟩ := hbad
          rcases List.mem_cons.mp hmem2 with heq | hin
          · subst heq
            rcases hor with h | h
            · rw [hc] at h; exact absurd h (by simp)
            · rw [hm] at h; exact absurd h (by simp)
          · exact ⟨ph2, hin, hor⟩
        obtain ⟨raw, pre, post, ⟨ph2, hin, hfield, hnone⟩, herr⟩ :=
          ih hbad2
        refine ⟨raw, pre, post,
          ⟨ph2, List.mem_cons_of_mem _ hin, hfield, hnone⟩, ?_⟩
        simp [parsePhases, hc, hm, herr, Except.map]

/-- C8: a pod with no simSpec annotation fails with the missing-spec
error; and when any phase of the annotation has a CPU or memory string
that fails quantity parsing, the whole parse fails with an error message
containing the offending raw string (the message decomposes around it),
and no plan — not even a partial one — is returned, since the error
branch of Except carries no plan. -/
theorem c8_parse_error_exhaustive :
    (∀ pod : Pod, pod.annotations = none →
      parseSimSpec pod = Except.error "simSpec not defined")
    ∧ (∀ (pod : Pod) (phases : List simSpecPhaseJSON),
        pod.annotations = some phases →
        (∃ ph ∈ phases,
          parseQuantity ph.cpu = none ∨ parseQuantity ph.memory = none) →
        ∃ raw pre post,
          (∃ ph ∈ phases, (raw = ph.cpu ∨ raw = ph.memory)
            ∧ parseQuantity raw = none)
          ∧ parseSimSpec pod = Except.error (pre ++ raw ++ post)) := by
  constructor
  · intro pod h
    simp [parseSimSpec, h]
  · intro pod phases hann hbad
    obtain ⟨raw, pre, post, hw, herr⟩ := parsePhases_err phases hbad
    exact ⟨raw, pre, post, hw, by simp [parseSimSpec, hann, herr]⟩

/-- Witness for C8: a pod without the annotation fails with the
missing-spec error, and a profile whose only phase has cpu
"notaquantity" fails with an error containing that raw string. -/
theorem c8_parse_error_exhaustive_witness :
    parseSimSpec ⟨"default", "w8", none, []⟩
        = Except.error "simSpec not defined"
    ∧ ∃ raw pre post,
        (∃ ph ∈ [(⟨10, "notaquantity", "1Gi", 0⟩ : simSpecPhaseJSON)],
          (raw = ph.cpu ∨ raw = ph.memory) ∧ parseQuantity raw = none)
        ∧ parseSimSpec
            ⟨"default", "w8", some [⟨10, "notaquantity", "1Gi", 0⟩], []⟩
          = Except.error (pre ++ raw ++ post) := by
  constructor
  · exact c8_parse_error_exhaustive.1 ⟨"default", "w8", none, []⟩ rfl
  · exact c8_parse_error_exhaustive.2
      ⟨"default", "w8", some [⟨10, "notaquantity", "1Gi", 0⟩], []⟩
      [⟨10, "notaquantity", "1Gi", 0⟩] rfl
      ⟨⟨10, "notaquantity", "1Gi", 0⟩,
        List.mem_singleton.mpr rfl, Or.inl (by decide)⟩

theorem sep_split_unique :
    ∀ (a1 b1 a2 b2 : List Char), '-' ∉ a1 → '-' ∉ a2 →
      a1 ++ '-' :: b1 = a2 ++ '-' :: b2 → a1 = a2 ∧ b1 = b2 := by
  intro a1
  induction a1 with
  | nil =>
    intro b1 a2 b2 _ h2 heq
    cases a2 with
    | nil => simpa using heq
    | cons c a2t =>
      simp only [List.nil_append, List.cons_append, List.cons.injEq] at heq
      exact absurd (heq.1 ▸ List.mem_cons_self c a2t) h2
  | cons c a1t ih =>
    intro b1 a2 b2 h1 h2 heq
    cases a2 with
    | nil =>
      simp only [List.cons_append, List.nil_append, List.cons.injEq] at heq
      exact absurd (heq.1 ▸ List.mem_cons_self c a1t) h1
    | cons d a2t =>
      simp only [List.cons_append, List.cons.injEq] at heq
      obtain ⟨rfl, htail⟩ := heq
      have h1t : '-' ∉ a1t := fun hx => h1 (List.mem_cons_of_mem _ hx)
      have h2t : '-' ∉ a2t := fun hx => h2 (List.mem_cons_of_mem _ hx)
      obtain ⟨he, hb⟩ := ih b1 a2t b2 h1t h2t htail
      exact ⟨by rw [he], hb⟩

/-- C9 (amended): buildKey fails exactly when the namespace or the name
is empty; and the key derivation namespace ++ "-" ++ name is injective on
pairs whose namespaces contain no hyphen (unrestricted injectivity fails:
see the counterexample, which the hyphen in a namespace makes possible). -/
theorem c9_build_key_injective_no_hyphen :
    (∀ pod : Pod,
      (∃ e, buildKey pod = Except.error e)
        ↔ (pod.nspace = "" ∨ pod.name = ""))
    ∧ (∀ ns1 n1 ns2 n2 : String,
        '-' ∉ ns1.data → '-' ∉ ns2.data →
        buildKeyFromNames ns1 n1 = buildKeyFromNames ns2 n2 →
        ns1 = ns2 ∧ n1 = n2) := by
  constructor
  · intro pod
    by_cases hns : pod.nspace = ""
    · simp [buildKey, hns]
    · by_cases hn : pod.name = ""
      · simp [buildKey, hns, hn]
      · simp [buildKey, buildKeyFromNames, hns, hn]
  · intro ns1 n1 ns2 n2 h1 h2 heq
    simp only [buildKeyFromNames, Except.ok.injEq] at heq
    have hdata : ns1.data ++ '-' :: n1.data = ns2.data ++ '-' :: n2.data := by
      have := congrArg String.data heq
      simpa [String.data_append] using this
    obtain ⟨ha, hb⟩ := sep_split_unique ns1.data n1.data ns2.data n2.data
      h1 h2 hdata
    constructor
    · cases ns1; cases ns2; exact congrArg String.mk ha
    · cases n1; cases n2; exact congrArg String.mk hb

/-- Witness for C9 (amended) at hyphen-free namespaces. -/
theorem c9_build_key_injective_no_hyphen_witness :
    ((∃ e, buildKey ⟨"", "w9", none, []⟩ = Except.error e)
      ∧ ¬ ∃ e, buildKey ⟨"default", "w9", none, []⟩ = Except.error e)
    ∧ ("default" = "default" ∧ "w9" = "w9") := by
  constructor
  · constructor
    · exact (c9_build_key_injective_no_hyphen.1 ⟨"", "w9", none, []⟩).mpr
        (Or.inl rfl)
    · intro h
      have := (c9_build_key_injective_no_hyphen.1
        ⟨"default", "w9", none, []⟩).mp h
      simp at this
  · exact c9_build_key_injective_no_hyphen.2 "default" "w9" "default" "w9"
      (by decide) (by decide) rfl

/-- Counterexample for C9 as stated: the distinct valid pairs
("a-b", "c") and ("a", "b-c") are both mapped to the key "a-b-c". -/
theorem c9_counterexample_key_collision :
    buildKeyFromNames "a-b" "c" = Except.ok "a-b-c"
    ∧ buildKeyFromNames "a" "b-c" = Except.ok "a-b-c"
    ∧ ¬(("a-b" : String) = "a" ∧ ("c" : String) = "b-c")
    ∧ ("a-b" : String) ≠ "" ∧ ("c" : String) ≠ ""
    ∧ ("a" : String) ≠ "" ∧ ("b-c" : String) ≠ "" := by
  refine ⟨?_, ?_, by decide, by decide, by decide, by decide, by decide⟩
  · show Except.ok ("a-b" ++ "-" ++ "c") = Except.ok "a-b-c"
    rw [show ("a-b" ++ "-" ++ "c" : String) = "a-b-c" from by decide]
  · show Except.ok ("a" ++ "-" ++ "b-c") = Except.ok "a-b-c"
    rw [show ("a" ++ "-" ++ "b-c" : String) = "a-b-c" from by decide]

/-- C10: the Range method of PodMap in package simpod consists solely of
a recursive call to itself, so it never returns within any number of
unfolding steps, never reads the stored entries, and never applies the
visitor function — contradicting the evident intent (wrapping the
underlying map traversal) documented for the sibling implementations. -/
theorem c10_range_never_returns :
    ∀ (n : Nat) (m : simpod.PodMap)
      (f : String → simpod.RunningPod → Bool),
      simpod.rangeFuel n m f = none := by
  intro n
  induction n with
  | zero => intro m f; rfl
  | succ k ih => intro m f; exact ih m f

end VKSim
